import Mathlib

/-!
Shallow embedding of `src/blue-green-deployment/watcher.py`, the blue/green
deployment log watcher.  Global mutable state (`last_seen_pool`,
`request_window`, `last_alert_times`) is threaded explicitly; the Slack sink
call is modelled by a `SinkResult` input; `time.time()` is an explicit `ℚ`
argument; configuration environment variables are explicit parameters.
Detections (the `print`/`send_slack_alert` sites reached by `check_failover`,
`check_error_rate`, `check_recovery`) are modelled as emitted `Event`s.
-/

namespace Watcher

/-- Python regex `\S` complement: the characters Python counts as whitespace
in the `\s` class (ASCII fragment). -/
def isPySpace (c : Char) : Bool :=
  c = ' ' ∨ c = '\t' ∨ c = '\n' ∨ c = '\x0d' ∨ c = '\x0b' ∨ c = '\x0c'

/-- ASCII decimal digit, for the regex `\d` class. -/
def isDigitCh (c : Char) : Bool := '0' ≤ c ∧ c ≤ '9'

/-- Match a literal character sequence at the head of the input, returning the
rest on success. -/
def matchLit : List Char → List Char → Option (List Char)
  | [], cs => some cs
  | _ :: _, [] => none
  | k :: ks, c :: cs => if c = k then matchLit ks cs else none

/-- Maximal `\S*` run at the head of the input (greedy). -/
def takeNonSpace : List Char → List Char × List Char
  | [] => ([], [])
  | c :: cs =>
    if isPySpace c then ([], c :: cs)
    else
      let (r, rest) := takeNonSpace cs
      (c :: r, rest)

/-- Maximal `\d*` run at the head of the input (greedy). -/
def takeDigits : List Char → List Char × List Char
  | [] => ([], [])
  | c :: cs =>
    if isDigitCh c then
      let (r, rest) := takeDigits cs
      (c :: r, rest)
    else ([], c :: cs)

/-- Match the body of `\[([^\]]+)\] ` after the opening `[`: the greedy
`[^\]]+` run is everything up to the first `]`, which must be nonempty and
followed by a space (backtracking cannot rescue a failure here, so the
match is deterministic).  Returns the captured timestamp and the rest. -/
def matchTsBody : List Char → List Char → Option (List Char × List Char)
  | [], _ => none
  | c :: rest, acc =>
    if c = ']' then
      if acc = [] then none
      else
        match rest with
        | [] => none
        | d :: rest2 => if d = ' ' then some (acc.reverse, rest2) else none
    else matchTsBody rest (c :: acc)

/-- Match `\[([^\]]+)\] ` at the head of the input. -/
def matchTimestamp : List Char → Option (List Char × List Char)
  | [] => none
  | c :: rest => if c = '[' then matchTsBody rest [] else none

/-- `re.search` of the watcher pattern: since everything after the timestamp
anchor is optional, the overall pattern matches at a position exactly when
`\[([^\]]+)\] ` does; return the leftmost such match. -/
def searchTimestamp : List Char → Option (List Char × List Char)
  | [] => none
  | c :: rest =>
    match matchTimestamp (c :: rest) with
    | some r => some r
    | none => searchTimestamp rest

/-- One optional segment `(?:key=(\S+) )?`: literal key, a nonempty greedy
non-space run, then a literal space; on failure nothing is consumed. -/
def segSp (key : String) (cs : List Char) : Option String × List Char :=
  match matchLit key.toList cs with
  | none => (none, cs)
  | some rest =>
    let (v, rest2) := takeNonSpace rest
    if v = [] then (none, cs)
    else
      match rest2 with
      | ' ' :: rest3 => (some (String.mk v), rest3)
      | _ => (none, cs)

/-- The segment `(?:status=(\d+) )?`, whose value class is `\d+`. -/
def segStatusSp (cs : List Char) : Option String × List Char :=
  match matchLit "status=".toList cs with
  | none => (none, cs)
  | some rest =>
    let (v, rest2) := takeDigits rest
    if v = [] then (none, cs)
    else
      match rest2 with
      | ' ' :: rest3 => (some (String.mk v), rest3)
      | _ => (none, cs)

/-- The final segment `(?:client=(\S+))?`, with no trailing space. -/
def segClientEnd (cs : List Char) : Option String × List Char :=
  match matchLit "client=".toList cs with
  | none => (none, cs)
  | some rest =>
    let (v, rest2) := takeNonSpace rest
    if v = [] then (none, cs) else (some (String.mk v), rest2)

/-- The dict returned by `parse_log_line`: all eleven keys always present. -/
structure LogEntry where
  timestamp : String
  method : String
  uri : String
  status : String
  pool : String
  release : String
  upstream_addr : String
  upstream_status : String
  request_time : String
  upstream_response_time : String
  client : String
deriving DecidableEq, Repr

/-- `parse_log_line`: `re.search` the pattern, `None` on no match, else the
groups with sentinel defaults (`or '-'`, `or '0'` for the time fields). -/
def parse_log_line (line : String) : Option LogEntry :=
  match searchTimestamp line.toList with
  | none => none
  | some tsr =>
    let s1 := segSp "method=" tsr.2
    let s2 := segSp "uri=" s1.2
    let s3 := segStatusSp s2.2
    let s4 := segSp "pool=" s3.2
    let s5 := segSp "release=" s4.2
    let s6 := segSp "upstream_addr=" s5.2
    let s7 := segSp "upstream_status=" s6.2
    let s8 := segSp "request_time=" s7.2
    let s9 := segSp "upstream_response_time=" s8.2
    let s10 := segClientEnd s9.2
    some
      { timestamp := String.mk tsr.1
        method := s1.1.getD "-"
        uri := s2.1.getD "-"
        status := s3.1.getD "-"
        pool := s4.1.getD "-"
        release := s5.1.getD "-"
        upstream_addr := s6.1.getD "-"
        upstream_status := s7.1.getD "-"
        request_time := s8.1.getD "0"
        upstream_response_time := s9.1.getD "0"
        client := s10.1.getD "-" }

/-- A nonempty all-digit character run read as a number. -/
def digitsToNat? (cs : List Char) : Option Nat :=
  if cs = [] then none
  else if cs.all isDigitCh then
    some (cs.foldl (fun n c => 10 * n + (c.toNat - '0'.toNat)) 0)
  else none

/-- Python `int(s)`: strip whitespace, optional sign, then a nonempty digit
run; anything else raises `ValueError` (modelled as `none`). -/
def pyInt (s : String) : Option Int :=
  let cs := (s.toList.dropWhile isPySpace).reverse.dropWhile isPySpace |>.reverse
  match cs with
  | '-' :: rest => (digitsToNat? rest).map (fun n => -(n : Int))
  | '+' :: rest => (digitsToNat? rest).map (fun n => (n : Int))
  | _ => (digitsToNat? cs).map (fun n => (n : Int))

/-- A detection: a site in the code that prints the condition and calls
`send_slack_alert` (or, for `initialPool`, prints the initial pool). -/
inductive Event where
  | initialPool (pool : String)
  | failoverDetected (previous current : String)
  | highErrorRate
  | recoveryDetected (pool : String)
deriving DecidableEq, Repr

/-- `check_failover(current_pool, log_entry)`: the global `last_seen_pool`
before the call comes in, the value after the call goes out together with the
detections emitted.  The `log_entry` argument only feeds alert details. -/
def check_failover (current_pool : String) (last_seen_pool : Option String) :
    Option String × List Event :=
  match last_seen_pool with
  | none => (some current_pool, [Event.initialPool current_pool])
  | some last =>
    if current_pool ≠ last ∧ current_pool ≠ "-" then
      (some current_pool, [Event.failoverDetected last current_pool])
    else (some last, [])

/-- `sum(1 for status in request_window if status >= 500)`. -/
def errorCount (request_window : List Int) : Nat :=
  (request_window.filter (fun status => 500 ≤ status)).length

/-- `(error_count / len(request_window)) * 100`, with floats read as exact
rationals. -/
def errorRate (request_window : List Int) : ℚ :=
  ((errorCount request_window : ℚ) / (request_window.length : ℚ)) * 100

/-- `check_error_rate()`: nothing until the window has `WINDOW_SIZE` samples,
then a high-error-rate detection exactly when the rate strictly exceeds
`ERROR_RATE_THRESHOLD`. -/
def check_error_rate (WINDOW_SIZE : Nat) (ERROR_RATE_THRESHOLD : ℚ)
    (request_window : List Int) : List Event :=
  if request_window.length < WINDOW_SIZE then []
  else if errorRate request_window > ERROR_RATE_THRESHOLD then
    [Event.highErrorRate]
  else []

/-- `check_recovery(current_pool, initial_pool)` reading the global
`last_seen_pool` (note: in the main loop this global has already been
overwritten by `check_failover` for the same line). -/
def check_recovery (current_pool initial_pool : String)
    (last_seen_pool : Option String) : List Event :=
  if current_pool = initial_pool ∧ last_seen_pool ≠ some initial_pool then
    [Event.recoveryDetected initial_pool]
  else []

/-- `request_window.append(x)` on a `deque(maxlen=WINDOW_SIZE)`: append, and
when over capacity evict from the left. -/
def pushWindow (WINDOW_SIZE : Nat) (w : List Int) (x : Int) : List Int :=
  let w2 := w ++ [x]
  if WINDOW_SIZE < w2.length then w2.drop (w2.length - WINDOW_SIZE) else w2

/-- Pushing a whole sequence of status codes, oldest first. -/
def pushAll (WINDOW_SIZE : Nat) (w : List Int) (xs : List Int) : List Int :=
  xs.foldl (pushWindow WINDOW_SIZE) w

/-- The mutable session state the main loop owns (the alert cooldown table is
modelled separately at the dispatch layer). -/
structure LoopState where
  last_seen_pool : Option String
  request_window : List Int
deriving DecidableEq, Repr

/-- Session start: `last_seen_pool = None`, empty window. -/
def initState : LoopState := ⟨none, []⟩

/-- Result of the loop body on one parsed entry: the updated state with the
detections emitted, or an uncaught exception escaping the loop. -/
inductive StepResult where
  | ok (s : LoopState) (events : List Event)
  | crash
deriving DecidableEq, Repr

/-- One iteration of the `main` loop body on an already-parsed entry:
`status_code = int(log_entry.get('status', '0'))` (the key is always
present, so the `.get` default is dead; `int` can raise), skip sentinel
pools, append to the window, then `check_failover`, `check_error_rate`,
`check_recovery` in that order on the updated globals. -/
def processEntry (WINDOW_SIZE : Nat) (ERROR_RATE_THRESHOLD : ℚ)
    (initial_pool : String) (s : LoopState) (entry : LogEntry) : StepResult :=
  let current_pool := entry.pool
  match pyInt entry.status with
  | none => StepResult.crash
  | some status_code =>
    if current_pool = "-" then StepResult.ok s []
    else
      let w := pushWindow WINDOW_SIZE s.request_window status_code
      let (last2, ev1) := check_failover current_pool s.last_seen_pool
      let ev2 := check_error_rate WINDOW_SIZE ERROR_RATE_THRESHOLD w
      let ev3 := check_recovery current_pool initial_pool last2
      StepResult.ok ⟨last2, w⟩ (ev1 ++ ev2 ++ ev3)

/-- Run the main loop over a list of parsed entries, collecting all
detections; an uncaught exception ends the session. -/
def runEntries (WINDOW_SIZE : Nat) (ERROR_RATE_THRESHOLD : ℚ)
    (initial_pool : String) : LoopState → List LogEntry → LoopState × List Event
  | s, [] => (s, [])
  | s, e :: es =>
    match processEntry WINDOW_SIZE ERROR_RATE_THRESHOLD initial_pool s e with
    | StepResult.crash => (s, [])
    | StepResult.ok s2 evs =>
      let (s3, evs2) := runEntries WINDOW_SIZE ERROR_RATE_THRESHOLD initial_pool s2 es
      (s3, evs ++ evs2)

/-- Number of Failover detections in an event trace. -/
def countFailovers (evs : List Event) : Nat :=
  (evs.filter (fun e => match e with
    | Event.failoverDetected _ _ => true
    | _ => false)).length

/-- Number of Recovery detections in an event trace. -/
def countRecoveries (evs : List Event) : Nat :=
  (evs.filter (fun e => match e with
    | Event.recoveryDetected _ => true
    | _ => false)).length

/-- The configuration the dispatcher reads. -/
structure AlertConfig where
  SLACK_WEBHOOK_URL : String
  MAINTENANCE_MODE : Bool
  ALERT_COOLDOWN_SEC : ℚ
deriving DecidableEq, Repr

/-- Outcome of the `requests.post` call to the sink: a response with a status
code, or a raised exception (transport error / timeout). -/
inductive SinkResult where
  | response (status_code : Nat)
  | raised
deriving DecidableEq, Repr

/-- What one `send_slack_alert` call did: its return value, the cooldown
table afterwards, and whether the sink was actually called. -/
structure SendOutcome where
  result : Bool
  table : List (String × ℚ)
  sink_called : Bool
deriving DecidableEq, Repr

/-- Python dict lookup on the cooldown table. -/
def tblGet : List (String × ℚ) → String → Option ℚ
  | [], _ => none
  | (k, v) :: rest, key => if k = key then some v else tblGet rest key

/-- Python dict assignment `d[k] = v` on the cooldown table. -/
def tblSet : List (String × ℚ) → String → ℚ → List (String × ℚ)
  | [], key, v => [(key, v)]
  | (k, w) :: rest, key, v =>
    if k = key then (key, v) :: rest else (k, w) :: tblSet rest key v

/-- `send_slack_alert(alert_type, message, details)`: globals
`last_alert_times` and `time.time()` are explicit, the sink call outcome is
the `sink` input; `message` and `details` only shape the payload. -/
def send_slack_alert (cfg : AlertConfig) (last_alert_times : List (String × ℚ))
    (now : ℚ) (alert_type : String) (message : String)
    (details : List (String × String)) (sink : SinkResult) : SendOutcome :=
  if cfg.SLACK_WEBHOOK_URL = "" then ⟨false, last_alert_times, false⟩
  else if cfg.MAINTENANCE_MODE then ⟨false, last_alert_times, false⟩
  else
    match tblGet last_alert_times alert_type with
    | some last =>
      if now - last < cfg.ALERT_COOLDOWN_SEC then ⟨false, last_alert_times, false⟩
      else
        match sink with
        | SinkResult.response code =>
          if code = 200 then ⟨true, tblSet last_alert_times alert_type now, true⟩
          else ⟨false, last_alert_times, true⟩
        | SinkResult.raised => ⟨false, last_alert_times, true⟩
    | none =>
      match sink with
      | SinkResult.response code =>
        if code = 200 then ⟨true, tblSet last_alert_times alert_type now, true⟩
        else ⟨false, last_alert_times, true⟩
      | SinkResult.raised => ⟨false, last_alert_times, true⟩

/-- The cooldown guard of `send_slack_alert` lets the call through. -/
def cooldown_passed (cfg : AlertConfig) (last_alert_times : List (String × ℚ))
    (now : ℚ) (alert_type : String) : Bool :=
  match tblGet last_alert_times alert_type with
  | some last => !(now - last < cfg.ALERT_COOLDOWN_SEC)
  | none => true

/-- The sink call failed: an exception was raised or the response status was
not a success in the code's sense. -/
def sinkFailed : SinkResult → Bool
  | SinkResult.response code => !(code = 200)
  | SinkResult.raised => true

/-- Behaviour of `send_slack_alert` once all three guards (sink configured,
not in maintenance, cooldown passed) let the call through to the sink. -/
def sinkDispatch (last_alert_times : List (String × ℚ)) (now : ℚ)
    (alert_type : String) (sink : SinkResult) : SendOutcome :=
  match sink with
  | SinkResult.response code =>
    if code = 200 then ⟨true, tblSet last_alert_times alert_type now, true⟩
    else ⟨false, last_alert_times, true⟩
  | SinkResult.raised => ⟨false, last_alert_times, true⟩

/-- A whole sequence of triggering conditions pushed through the dispatcher
(each with its own clock reading, payload and sink behaviour): final cooldown
table and the number of sink calls made. -/
def dispatchSeq (cfg : AlertConfig) (last_alert_times : List (String × ℚ)) :
    List (ℚ × String × String × List (String × String) × SinkResult) →
      List (String × ℚ) × Nat
  | [] => (last_alert_times, 0)
  | (now, ty, msg, det, sink) :: rest =>
    let o := send_slack_alert cfg last_alert_times now ty msg det sink
    let (t2, n) := dispatchSeq cfg o.table rest
    (t2, (if o.sink_called then 1 else 0) + n)

/-- One iteration of the `main` loop body on a raw line: parse, skip
unparsed lines, then the entry-level body. -/
def processLine (WINDOW_SIZE : Nat) (ERROR_RATE_THRESHOLD : ℚ)
    (initial_pool : String) (s : LoopState) (line : String) : StepResult :=
  match parse_log_line line with
  | none => StepResult.ok s []
  | some entry => processEntry WINDOW_SIZE ERROR_RATE_THRESHOLD initial_pool s entry

/-- Run the main loop over raw input lines, collecting all detections; an
uncaught exception ends the session. -/
def runLines (WINDOW_SIZE : Nat) (ERROR_RATE_THRESHOLD : ℚ)
    (initial_pool : String) : LoopState → List String → LoopState × List Event
  | s, [] => (s, [])
  | s, line :: rest =>
    match processLine WINDOW_SIZE ERROR_RATE_THRESHOLD initial_pool s line with
    | StepResult.crash => (s, [])
    | StepResult.ok s2 evs =>
      let (s3, evs2) := runLines WINDOW_SIZE ERROR_RATE_THRESHOLD initial_pool s2 rest
      (s3, evs ++ evs2)

/-- The last `WINDOW_SIZE` elements of a list (all of it when shorter). -/
def takeLast (WINDOW_SIZE : Nat) (l : List Int) : List Int :=
  l.drop (l.length - WINDOW_SIZE)

/-- From the claim's words: the line contains a bracketed timestamp token
(a nonempty, bracket-free character run enclosed in square brackets). -/
def spec_hasBracketedTimestamp (line : String) : Prop :=
  ∃ pre mid post, line.toList = pre ++ '[' :: (mid ++ ']' :: post)
    ∧ mid ≠ [] ∧ ']' ∉ mid

/-- From the spec's words, amended by what the regex actually requires: a
bracketed timestamp token immediately followed by a space. -/
def spec_timestampAnchor (line : String) : Prop :=
  ∃ pre mid post, line.toList = pre ++ '[' :: (mid ++ ']' :: ' ' :: post)
    ∧ mid ≠ [] ∧ ']' ∉ mid

/-- The log entry whose observed pool is `p`, with a parsable status, as the
C1 test sequence produces. -/
def obsEntry (p : String) : LogEntry :=
  ⟨"t", "-", "-", "200", p, "-", "-", "-", "0", "0", "-"⟩

/-! ## Tracker lemmas -/

theorem check_failover_fst (pool : String) (last : Option String)
    (h : pool ≠ "-") : (check_failover pool last).1 = some pool := by
  unfold check_failover
  cases last with
  | none => rfl
  | some l =>
    by_cases hc : pool ≠ l ∧ pool ≠ "-"
    · simp [hc]
    · have hl : pool = l := by tauto
      simp [hc, hl]

theorem check_recovery_after_failover (pool initial : String)
    (last : Option String) (h : pool ≠ "-") :
    check_recovery pool initial (check_failover pool last).1 = [] := by
  rw [check_failover_fst pool last h]
  unfold check_recovery
  by_cases hip : pool = initial
  · subst hip; simp
  · simp [hip]

theorem countRecoveries_append (a b : List Event) :
    countRecoveries (a ++ b) = countRecoveries a + countRecoveries b := by
  unfold countRecoveries
  rw [List.filter_append, List.length_append]

theorem countRecoveries_check_failover (pool : String) (last : Option String) :
    countRecoveries (check_failover pool last).2 = 0 := by
  unfold check_failover
  cases last with
  | none => rfl
  | some l =>
    by_cases hc : pool ≠ l ∧ pool ≠ "-"
    · simp only [hc, if_true, if_pos hc]; rfl
    · simp only [hc, if_false, if_neg hc]; rfl

theorem countRecoveries_check_error_rate (N : Nat) (th : ℚ) (w : List Int) :
    countRecoveries (check_error_rate N th w) = 0 := by
  unfold check_error_rate
  by_cases hlen : w.length < N
  · simp only [if_pos hlen]; rfl
  · by_cases hr : errorRate w > th
    · simp only [if_neg hlen, if_pos hr]; rfl
    · simp only [if_neg hlen, if_neg hr]; rfl

theorem processEntry_no_recovery (N : Nat) (th : ℚ) (ip : String)
    (s : LoopState) (e : LogEntry) (s2 : LoopState) (evs : List Event)
    (h : processEntry N th ip s e = StepResult.ok s2 evs) :
    countRecoveries evs = 0 := by
  unfold processEntry at h
  cases hpi : pyInt e.status with
  | none => rw [hpi] at h; exact absurd h (by simp)
  | some code =>
    rw [hpi] at h
    by_cases hp : e.pool = "-"
    · simp [hp] at h
      rw [h.2]
      rfl
    · simp only [hp, if_false, if_neg hp] at h
      have hevs : evs =
          (check_failover e.pool s.last_seen_pool).2
            ++ check_error_rate N th (pushWindow N s.request_window code)
            ++ check_recovery e.pool ip (check_failover e.pool s.last_seen_pool).1 := by
        cases h' : check_failover e.pool s.last_seen_pool with
        | mk fst snd => simp [h'] at h; simp [h.2, h']
      rw [hevs, countRecoveries_append, countRecoveries_append,
        countRecoveries_check_failover, countRecoveries_check_error_rate,
        check_recovery_after_failover e.pool ip s.last_seen_pool hp]
      rfl

theorem runLines_no_recovery (N : Nat) (th : ℚ) (ip : String)
    (lines : List String) : ∀ s : LoopState,
    countRecoveries (runLines N th ip s lines).2 = 0 := by
  induction lines with
  | nil => intro s; rfl
  | cons line rest ih =>
    intro s
    unfold runLines
    cases hstep : processLine N th ip s line with
    | crash => rfl
    | ok s2 evs =>
      have hev : countRecoveries evs = 0 := by
        unfold processLine at hstep
        cases hpl : parse_log_line line with
        | none => rw [hpl] at hstep; simp at hstep; rw [hstep.2]; rfl
        | some entry =>
          rw [hpl] at hstep
          exact processEntry_no_recovery N th ip s entry s2 evs hstep
      cases hrec : runLines N th ip s2 rest with
      | mk s3 evs2 =>
        have : countRecoveries evs2 = 0 := by
          have := ih s2; rw [hrec] at this; exact this
        simp only [hrec]
        unfold countRecoveries at *
        rw [List.filter_append, List.length_append]
        omega

/-- C2: after `check_failover` returns for a non-sentinel pool, the global
`last_seen_pool` equals that pool; consequently the `check_recovery` guard,
evaluated right afterwards in the main loop, is never satisfied, so no
Recovery detection is ever emitted in any session. -/
theorem c2_recovery_is_dead_code :
    (∀ pool last, pool ≠ "-" → (check_failover pool last).1 = some pool)
    ∧ (∀ (N : Nat) (th : ℚ) (ip : String) (s : LoopState) (lines : List String),
        countRecoveries (runLines N th ip s lines).2 = 0) :=
  ⟨check_failover_fst, fun N th ip s lines => runLines_no_recovery N th ip lines s⟩

/-- Witness for C2 at the concrete transition green-after-blue and a concrete
one-line session. -/
theorem c2_recovery_is_dead_code_witness :
    (check_failover "green" (some "blue")).1 = some "green"
    ∧ countRecoveries
        (runLines 200 2 "blue" initState ["[t1] status=200 pool=green "]).2 = 0 :=
  ⟨c2_recovery_is_dead_code.1 "green" (some "blue") (by decide),
   c2_recovery_is_dead_code.2 200 2 "blue" initState ["[t1] status=200 pool=green "]⟩

/-- C9: a parsed entry whose pool label is the sentinel is never acted on:
either the loop body skips it with state untouched and no detection emitted,
or (when the status sentinel makes the `int` conversion raise first) the body
aborts, which also leaves the window and tracker untouched and emits no
detection. -/
theorem c9_sentinel_pool_skipped (N : Nat) (th : ℚ) (ip : String)
    (s : LoopState) (e : LogEntry) (h : e.pool = "-") :
    processEntry N th ip s e = StepResult.ok s []
    ∨ processEntry N th ip s e = StepResult.crash := by
  unfold processEntry
  cases hpi : pyInt e.status with
  | none => right; rfl
  | some code => left; simp [h]

/-- Witness for C9 at a concrete sentinel-pool entry. -/
theorem c9_sentinel_pool_skipped_witness :
    processEntry 200 2 "blue" initState (obsEntry "-") = StepResult.ok initState []
    ∨ processEntry 200 2 "blue" initState (obsEntry "-") = StepResult.crash :=
  c9_sentinel_pool_skipped 200 2 "blue" initState (obsEntry "-") (by decide)

/-! ## Dispatcher lemmas -/

theorem send_guards_open (cfg : AlertConfig) (tbl : List (String × ℚ)) (now : ℚ)
    (ty msg : String) (det : List (String × String)) (sink : SinkResult)
    (hw : cfg.SLACK_WEBHOOK_URL ≠ "") (hm : cfg.MAINTENANCE_MODE = false)
    (hc : cooldown_passed cfg tbl now ty = true) :
    send_slack_alert cfg tbl now ty msg det sink = sinkDispatch tbl now ty sink := by
  unfold send_slack_alert sinkDispatch
  unfold cooldown_passed at hc
  rw [if_neg hw, hm, if_neg (by simp)]
  cases hg : tblGet tbl ty with
  | none => rfl
  | some last =>
    rw [hg] at hc
    simp only [Bool.not_eq_true', decide_eq_false_iff_not] at hc
    dsimp only
    rw [if_neg hc]

theorem cooldown_passed_mono (cfg : AlertConfig) (tbl : List (String × ℚ))
    (now now2 : ℚ) (ty : String) (hle : now ≤ now2)
    (hc : cooldown_passed cfg tbl now ty = true) :
    cooldown_passed cfg tbl now2 ty = true := by
  unfold cooldown_passed at *
  cases hg : tblGet tbl ty with
  | none => rfl
  | some last =>
    rw [hg] at hc
    simp only [Bool.not_eq_true', decide_eq_false_iff_not] at hc ⊢
    intro h2
    exact hc (lt_of_le_of_lt (by linarith) h2)

/-- C6: when the sink call fails (raised exception or non-success response),
`send_slack_alert` reports false and leaves the cooldown table unchanged, so
a later triggering condition of the same alert type still reaches the sink
(it is not blocked by cooldown). -/
theorem c6_sink_failure_leaves_cooldown (cfg : AlertConfig)
    (tbl : List (String × ℚ)) (now : ℚ) (ty msg : String)
    (det : List (String × String)) (sink : SinkResult)
    (hw : cfg.SLACK_WEBHOOK_URL ≠ "") (hm : cfg.MAINTENANCE_MODE = false)
    (hc : cooldown_passed cfg tbl now ty = true)
    (hf : sinkFailed sink = true) :
    (send_slack_alert cfg tbl now ty msg det sink).result = false
    ∧ (send_slack_alert cfg tbl now ty msg det sink).table = tbl
    ∧ (send_slack_alert cfg tbl now ty msg det sink).sink_called = true
    ∧ ∀ (now2 : ℚ) (msg2 : String) (det2 : List (String × String))
        (sink2 : SinkResult), now ≤ now2 →
        (send_slack_alert cfg (send_slack_alert cfg tbl now ty msg det sink).table
          now2 ty msg2 det2 sink2).sink_called = true := by
  rw [send_guards_open cfg tbl now ty msg det sink hw hm hc]
  have hfail : sinkDispatch tbl now ty sink = ⟨false, tbl, true⟩ := by
    unfold sinkDispatch
    cases sink with
    | raised => rfl
    | response code =>
      unfold sinkFailed at hf
      simp only [Bool.not_eq_true', decide_eq_false_iff_not] at hf
      dsimp only
      rw [if_neg hf]
  rw [hfail]
  refine ⟨rfl, rfl, rfl, ?_⟩
  intro now2 msg2 det2 sink2 hle
  rw [send_guards_open cfg tbl now2 ty msg2 det2 sink2 hw hm
    (cooldown_passed_mono cfg tbl now now2 ty hle hc)]
  unfold sinkDispatch
  cases sink2 with
  | raised => rfl
  | response code2 => by_cases h2 : code2 = 200 <;> simp [h2]

/-- Witness for C6: a timeout-style failure on a Failover dispatch at time 0,
then the same condition at time 1 still reaches the sink. -/
theorem c6_sink_failure_leaves_cooldown_witness :
    (send_slack_alert ⟨"https://hooks.example/x", false, 300⟩ [] 0
      "Failover Detected" "m" [] SinkResult.raised).result = false
    ∧ (send_slack_alert ⟨"https://hooks.example/x", false, 300⟩ [] 0
        "Failover Detected" "m" [] SinkResult.raised).table = []
    ∧ (send_slack_alert ⟨"https://hooks.example/x", false, 300⟩ [] 0
        "Failover Detected" "m" [] SinkResult.raised).sink_called = true
    ∧ (send_slack_alert ⟨"https://hooks.example/x", false, 300⟩
        (send_slack_alert ⟨"https://hooks.example/x", false, 300⟩ [] 0
          "Failover Detected" "m" [] SinkResult.raised).table
        1 "Failover Detected" "m" [] (SinkResult.response 200)).sink_called = true := by
  have h := c6_sink_failure_leaves_cooldown ⟨"https://hooks.example/x", false, 300⟩
    [] 0 "Failover Detected" "m" [] SinkResult.raised
    (by decide) (by decide) (by decide) (by decide)
  exact ⟨h.1, h.2.1, h.2.2.1, h.2.2.2 1 "m" [] (SinkResult.response 200) (by norm_num)⟩

/-- C7: with maintenance mode on and a sink configured, every dispatcher
call reports false, makes no sink call and leaves the cooldown table alone;
hence any sequence of triggering conditions makes zero sink calls and zero
table mutations. -/
theorem c7_maintenance_suppresses (cfg : AlertConfig)
    (hw : cfg.SLACK_WEBHOOK_URL ≠ "") (hm : cfg.MAINTENANCE_MODE = true) :
    (∀ (tbl : List (String × ℚ)) (now : ℚ) (ty msg : String)
        (det : List (String × String)) (sink : SinkResult),
        send_slack_alert cfg tbl now ty msg det sink = ⟨false, tbl, false⟩)
    ∧ ∀ (tbl : List (String × ℚ))
        (conds : List (ℚ × String × String × List (String × String) × SinkResult)),
        dispatchSeq cfg tbl conds = (tbl, 0) := by
  have hone : ∀ (tbl : List (String × ℚ)) (now : ℚ) (ty msg : String)
      (det : List (String × String)) (sink : SinkResult),
      send_slack_alert cfg tbl now ty msg det sink = ⟨false, tbl, false⟩ := by
    intro tbl now ty msg det sink
    unfold send_slack_alert
    rw [if_neg hw, hm, if_pos rfl]
  refine ⟨hone, ?_⟩
  intro tbl conds
  induction conds generalizing tbl with
  | nil => rfl
  | cons c rest ih =>
    obtain ⟨now, ty, msg, det, sink⟩ := c
    unfold dispatchSeq
    rw [hone tbl now ty msg det sink]
    dsimp only
    rw [ih tbl]
    rfl

/-- Witness for C7: a two-condition sequence under maintenance mode. -/
theorem c7_maintenance_suppresses_witness :
    send_slack_alert ⟨"https://hooks.example/x", true, 300⟩ [] 0
      "High Error Rate" "m" [] (SinkResult.response 200) = ⟨false, [], false⟩
    ∧ dispatchSeq ⟨"https://hooks.example/x", true, 300⟩ []
        [(0, "High Error Rate", "m", [], SinkResult.response 200),
         (1, "Failover Detected", "m", [], SinkResult.response 200)] = ([], 0) :=
  ⟨(c7_maintenance_suppresses ⟨"https://hooks.example/x", true, 300⟩
      (by decide) (by decide)).1 [] 0 "High Error Rate" "m" [] (SinkResult.response 200),
   (c7_maintenance_suppresses ⟨"https://hooks.example/x", true, 300⟩
      (by decide) (by decide)).2 []
      [(0, "High Error Rate", "m", [], SinkResult.response 200),
       (1, "Failover Detected", "m", [], SinkResult.response 200)]⟩

/-- C10: with the guards letting the call through, `send_slack_alert`
reports true and records the dispatch time exactly when the sink responds
with HTTP 200; every other response status (including other 2xx) reports
false and leaves the table unchanged, and a true report is only ever
produced by a 200 response. -/
theorem c10_success_requires_200 (cfg : AlertConfig)
    (tbl : List (String × ℚ)) (now : ℚ) (ty msg : String)
    (det : List (String × String))
    (hw : cfg.SLACK_WEBHOOK_URL ≠ "") (hm : cfg.MAINTENANCE_MODE = false)
    (hc : cooldown_passed cfg tbl now ty = true) :
    (∀ code : Nat, code ≠ 200 →
        send_slack_alert cfg tbl now ty msg det (SinkResult.response code)
          = ⟨false, tbl, true⟩)
    ∧ send_slack_alert cfg tbl now ty msg det (SinkResult.response 200)
        = ⟨true, tblSet tbl ty now, true⟩
    ∧ ∀ sink : SinkResult,
        (send_slack_alert cfg tbl now ty msg det sink).result = true →
        sink = SinkResult.response 200 := by
  refine ⟨?_, ?_, ?_⟩
  · intro code hcode
    rw [send_guards_open cfg tbl now ty msg det _ hw hm hc]
    unfold sinkDispatch
    dsimp only
    rw [if_neg hcode]
  · rw [send_guards_open cfg tbl now ty msg det _ hw hm hc]
    unfold sinkDispatch
    dsimp only
    rw [if_pos rfl]
  · intro sink hres
    rw [send_guards_open cfg tbl now ty msg det _ hw hm hc] at hres
    unfold sinkDispatch at hres
    cases sink with
    | raised => exact absurd hres (by simp)
    | response code =>
      by_cases h2 : code = 200
      · rw [h2]
      · dsimp only at hres
        rw [if_neg h2] at hres
        exact absurd hres (by simp)

/-- Witness for C10: a 201 response fails and mutates nothing; a 200
response succeeds and records the time. -/
theorem c10_success_requires_200_witness :
    send_slack_alert ⟨"https://hooks.example/x", false, 300⟩ [] 0
      "High Error Rate" "m" [] (SinkResult.response 201) = ⟨false, [], true⟩
    ∧ send_slack_alert ⟨"https://hooks.example/x", false, 300⟩ [] 0
        "High Error Rate" "m" [] (SinkResult.response 200)
        = ⟨true, tblSet [] "High Error Rate" 0, true⟩ :=
  ⟨(c10_success_requires_200 ⟨"https://hooks.example/x", false, 300⟩ [] 0
      "High Error Rate" "m" [] (by decide) (by decide) (by decide)).1 201 (by decide),
   (c10_success_requires_200 ⟨"https://hooks.example/x", false, 300⟩ [] 0
      "High Error Rate" "m" [] (by decide) (by decide) (by decide)).2.1⟩

/-! ## Window lemmas -/

theorem pushWindow_takeLast (N : Nat) (w : List Int) (x : Int) :
    pushWindow N w x = takeLast N (w ++ [x]) := by
  unfold pushWindow takeLast
  by_cases h : N < (w ++ [x]).length
  · rw [if_pos h]
  · rw [if_neg h]
    have h0 : (w ++ [x]).length - N = 0 := by omega
    rw [h0, List.drop_zero]

theorem takeLast_length_le (N : Nat) (l : List Int) :
    (takeLast N l).length ≤ N := by
  unfold takeLast
  rw [List.length_drop]
  omega

theorem takeLast_append (N : Nat) (l xs : List Int) :
    takeLast N (takeLast N l ++ xs) = takeLast N (l ++ xs) := by
  unfold takeLast
  have h1 : l.length - N ≤ l.length := Nat.sub_le _ _
  have key : l.drop (l.length - N) ++ xs = (l ++ xs).drop (l.length - N) :=
    (List.drop_append_of_le_length h1).symm
  rw [key, List.drop_drop]
  congr 1
  simp only [List.length_drop, List.length_append]
  omega

theorem pushAll_takeLast (N : Nat) (xs : List Int) : ∀ w : List Int,
    w.length ≤ N → pushAll N w xs = takeLast N (w ++ xs) := by
  induction xs with
  | nil =>
    intro w h
    unfold pushAll takeLast
    have h0 : w.length - N = 0 := by omega
    rw [List.foldl_nil, List.append_nil, h0, List.drop_zero]
  | cons x rest ih =>
    intro w h
    have step : pushAll N w (x :: rest) = pushAll N (pushWindow N w x) rest := by
      unfold pushAll
      rw [List.foldl_cons]
    rw [step, pushWindow_takeLast,
      ih (takeLast N (w ++ [x])) (takeLast_length_le N (w ++ [x])),
      takeLast_append]
    congr 1
    rw [List.append_assoc]
    rfl

theorem errorRate_bounds (w : List Int) (h : 0 < w.length) :
    0 ≤ errorRate w ∧ errorRate w ≤ 100 := by
  unfold errorRate errorCount
  have hlen : (0 : ℚ) < (w.length : ℚ) := by exact_mod_cast h
  constructor
  · positivity
  · have hc : ((w.filter (fun status => 500 ≤ status)).length : ℚ) ≤ (w.length : ℚ) := by
      exact_mod_cast List.length_filter_le _ w
    have hdiv : ((w.filter (fun status => 500 ≤ status)).length : ℚ) / (w.length : ℚ) ≤ 1 :=
      (div_le_one hlen).2 hc
    nlinarith

/-- C5: from session start, after any sequence of pushes the window holds at
most `WINDOW_SIZE` elements and, once more than `WINDOW_SIZE` have been
pushed, exactly the most recent `WINDOW_SIZE` of them; the error-rate check
returns without checking strictly until `WINDOW_SIZE` pushes have happened,
and from then on the computed rate is in `[0, 100]` and is compared against
the threshold. -/
theorem c5_window_invariants (N : Nat) (th : ℚ) (xs : List Int) (hN : 0 < N) :
    (pushAll N [] xs).length ≤ N
    ∧ (N < xs.length → pushAll N [] xs = xs.drop (xs.length - N))
    ∧ (xs.length < N → check_error_rate N th (pushAll N [] xs) = [])
    ∧ (N ≤ xs.length →
        check_error_rate N th (pushAll N [] xs)
          = (if errorRate (pushAll N [] xs) > th then [Event.highErrorRate] else [])
        ∧ 0 ≤ errorRate (pushAll N [] xs) ∧ errorRate (pushAll N [] xs) ≤ 100) := by
  have hall : pushAll N [] xs = takeLast N xs := by
    rw [pushAll_takeLast N xs [] (by simp), List.nil_append]
  have hlen : (pushAll N [] xs).length = xs.length - (xs.length - N) := by
    rw [hall]; unfold takeLast; rw [List.length_drop]
  refine ⟨?_, ?_, ?_, ?_⟩
  · rw [hall]; exact takeLast_length_le N xs
  · intro _; rw [hall]; rfl
  · intro hlt
    unfold check_error_rate
    rw [if_pos (by omega)]
  · intro hge
    have hlenN : (pushAll N [] xs).length = N := by omega
    have hbounds := errorRate_bounds (pushAll N [] xs) (by omega)
    refine ⟨?_, hbounds.1, hbounds.2⟩
    unfold check_error_rate
    rw [if_neg (by omega)]

/-- Witness for C5 at `WINDOW_SIZE = 2` and the push sequence
`500, 200, 503`. -/
theorem c5_window_invariants_witness :
    (pushAll 2 [] [500, 200, 503]).length ≤ 2
    ∧ (2 < ([500, 200, 503] : List Int).length →
        pushAll 2 [] [500, 200, 503]
          = ([500, 200, 503] : List Int).drop (([500, 200, 503] : List Int).length - 2))
    ∧ (([500, 200, 503] : List Int).length < 2 →
        check_error_rate 2 50 (pushAll 2 [] [500, 200, 503]) = [])
    ∧ (2 ≤ ([500, 200, 503] : List Int).length →
        check_error_rate 2 50 (pushAll 2 [] [500, 200, 503])
          = (if errorRate (pushAll 2 [] [500, 200, 503]) > 50 then [Event.highErrorRate] else [])
        ∧ 0 ≤ errorRate (pushAll 2 [] [500, 200, 503])
        ∧ errorRate (pushAll 2 [] [500, 200, 503]) ≤ 100) :=
  c5_window_invariants 2 50 [500, 200, 503] (by decide)

/-- C8: the error-rate detection fires exactly when the window is full and
the computed rate strictly exceeds the threshold; with the threshold set to
the rate itself (equality), it never fires. -/
theorem c8_strictly_greater : ∀ (N : Nat) (th : ℚ) (w : List Int),
    (check_error_rate N th w = [Event.highErrorRate] ↔ N ≤ w.length ∧ th < errorRate w)
    ∧ check_error_rate N (errorRate w) w = [] := by
  intro N th w
  constructor
  · unfold check_error_rate
    by_cases hlen : w.length < N
    · rw [if_pos hlen]
      constructor
      · intro h; exact absurd h (by simp)
      · intro h; omega
    · rw [if_neg hlen]
      by_cases hr : errorRate w > th
      · rw [if_pos hr]
        exact ⟨fun _ => ⟨by omega, hr⟩, fun _ => rfl⟩
      · rw [if_neg hr]
        constructor
        · intro h; exact absurd h (by simp)
        · intro h; exact absurd h.2 hr
  · unfold check_error_rate
    by_cases hlen : w.length < N
    · rw [if_pos hlen]
    · rw [if_neg hlen, if_neg (lt_irrefl (errorRate w))]

/-! ## Concrete evaluations of the code at the failing inputs -/

/-- C1: evaluating the code on the observation sequence
`blue, blue, green, blue` with primary pool `blue`: because `check_recovery`
reads `last_seen_pool` after `check_failover` has already overwritten it, the
run emits two Failover detections (blue to green, then green to blue) and
zero Recovery detections, where the claim expects one Failover and one
Recovery. -/
theorem c1_observed_trace_blue_green_blue :
    (runEntries 200 2 "blue" initState
        [obsEntry "blue", obsEntry "blue", obsEntry "green", obsEntry "blue"]).2
      = [Event.initialPool "blue", Event.failoverDetected "blue" "green",
          Event.failoverDetected "green" "blue"]
    ∧ countFailovers (runEntries 200 2 "blue" initState
        [obsEntry "blue", obsEntry "blue", obsEntry "green", obsEntry "blue"]).2 = 2
    ∧ countRecoveries (runEntries 200 2 "blue" initState
        [obsEntry "blue", obsEntry "blue", obsEntry "green", obsEntry "blue"]).2 = 0 := by
  refine ⟨?_, ?_, ?_⟩ <;> rfl

/-- C3: the parser accepts the line `"[t1] pool=blue "` with the status field
absent, resolving it to the sentinel `"-"`; the main loop's
`int(log_entry.get('status', '0'))` then raises `ValueError` on `"-"`
(modelled as `crash`) instead of treating the status as the sentinel `0`. -/
theorem c3_missing_status_raises :
    (parse_log_line "[t1] pool=blue ").map LogEntry.status = some "-"
    ∧ (parse_log_line "[t1] pool=blue ").map LogEntry.pool = some "blue"
    ∧ pyInt "-" = none
    ∧ processLine 200 2 "blue" initState "[t1] pool=blue " = StepResult.crash := by
  refine ⟨?_, ?_, ?_, ?_⟩ <;> rfl

/-! ## Parser anchor lemmas -/

theorem matchTsBody_decomp : ∀ (cs acc : List Char) (r : List Char × List Char),
    matchTsBody cs acc = some r →
    ∃ mid post, cs = mid ++ ']' :: ' ' :: post ∧ ']' ∉ mid ∧ (acc = [] → mid ≠ []) := by
  intro cs
  induction cs with
  | nil => intro acc r h; exact absurd h (by simp [matchTsBody])
  | cons c cs' ih =>
    intro acc r h
    unfold matchTsBody at h
    by_cases hc : c = ']'
    · subst hc
      rw [if_pos rfl] at h
      by_cases ha : acc = []
      · rw [if_pos ha] at h
        exact absurd h (by simp)
      · rw [if_neg ha] at h
        cases cs' with
        | nil => exact absurd h (by simp)
        | cons d rest2 =>
          dsimp only at h
          by_cases hd : d = ' '
          · subst hd
            exact ⟨[], rest2, rfl, by simp, fun hacc => absurd hacc ha⟩
          · rw [if_neg hd] at h
            exact absurd h (by simp)
    · rw [if_neg hc] at h
      obtain ⟨mid, post, hcs, hmem, _⟩ := ih (c :: acc) r h
      refine ⟨c :: mid, post, by rw [hcs]; rfl, ?_, fun _ => by simp⟩
      intro hmm
      rcases List.mem_cons.mp hmm with h1 | h1
      · exact hc h1.symm
      · exact hmem h1

theorem matchTsBody_of_decomp : ∀ (mid acc post : List Char),
    ']' ∉ mid → (mid = [] → acc ≠ []) →
    (matchTsBody (mid ++ ']' :: ' ' :: post) acc).isSome = true := by
  intro mid
  induction mid with
  | nil =>
    intro acc post _ hacc
    have ha : acc ≠ [] := hacc rfl
    rw [List.nil_append]
    unfold matchTsBody
    rw [if_pos rfl, if_neg ha]
    dsimp only
    rw [if_pos rfl]
    rfl
  | cons c mid' ih =>
    intro acc post hmem hacc
    have hc : c ≠ ']' := fun h => hmem (h ▸ List.mem_cons_self _ _)
    rw [List.cons_append]
    unfold matchTsBody
    rw [if_neg hc]
    exact ih (c :: acc) post (fun hm => hmem (List.mem_cons_of_mem _ hm)) (fun _ => by simp)

theorem matchTimestamp_decomp (cs : List Char) (r : List Char × List Char)
    (h : matchTimestamp cs = some r) :
    ∃ mid post, cs = '[' :: (mid ++ ']' :: ' ' :: post) ∧ mid ≠ [] ∧ ']' ∉ mid := by
  cases cs with
  | nil => exact absurd h (by simp [matchTimestamp])
  | cons c rest =>
    unfold matchTimestamp at h
    dsimp only at h
    by_cases hc : c = '['
    · subst hc
      rw [if_pos rfl] at h
      obtain ⟨mid, post, hcs, hmem, hne⟩ := matchTsBody_decomp rest [] r h
      exact ⟨mid, post, by rw [hcs], hne rfl, hmem⟩
    · rw [if_neg hc] at h
      exact absurd h (by simp)

theorem matchTimestamp_isSome (mid post : List Char) (hne : mid ≠ [])
    (hmem : ']' ∉ mid) :
    (matchTimestamp ('[' :: (mid ++ ']' :: ' ' :: post))).isSome = true := by
  unfold matchTimestamp
  dsimp only
  rw [if_pos rfl]
  exact matchTsBody_of_decomp mid [] post hmem (fun h => absurd h hne)

theorem searchTimestamp_decomp : ∀ (cs : List Char) (r : List Char × List Char),
    searchTimestamp cs = some r →
    ∃ pre rest2, cs = pre ++ rest2 ∧ matchTimestamp rest2 = some r := by
  intro cs
  induction cs with
  | nil => intro r h; exact absurd h (by simp [searchTimestamp])
  | cons c rest ih =>
    intro r h
    unfold searchTimestamp at h
    cases hm : matchTimestamp (c :: rest) with
    | some r2 =>
      rw [hm] at h
      refine ⟨[], c :: rest, rfl, ?_⟩
      rw [hm]
      exact congrArg some (Option.some_injective _ h)
    | none =>
      rw [hm] at h
      obtain ⟨pre, rest2, hcs, hmt⟩ := ih r h
      exact ⟨c :: pre, rest2, by rw [hcs]; rfl, hmt⟩

theorem searchTimestamp_isSome : ∀ (pre rest2 : List Char),
    (matchTimestamp rest2).isSome = true →
    (searchTimestamp (pre ++ rest2)).isSome = true := by
  intro pre
  induction pre with
  | nil =>
    intro rest2 h
    rw [List.nil_append]
    cases rest2 with
    | nil => exact absurd h (by simp [matchTimestamp])
    | cons c r =>
      unfold searchTimestamp
      cases hm : matchTimestamp (c :: r) with
      | some r2 => rfl
      | none => rw [hm] at h; exact absurd h (by simp)
  | cons c pre' ih =>
    intro rest2 h
    rw [List.cons_append]
    unfold searchTimestamp
    cases hm : matchTimestamp (c :: (pre' ++ rest2)) with
    | some r2 => rfl
    | none => exact ih rest2 h

theorem parse_isSome_iff_search (line : String) :
    (parse_log_line line).isSome = (searchTimestamp line.toList).isSome := by
  unfold parse_log_line
  cases h : searchTimestamp line.toList with
  | none => rfl
  | some r => rfl

/-- C4 counterexample: the line `"[t1]"` contains a bracketed timestamp
token, yet `parse_log_line` returns no-match, because the regex demands a
space right after the closing bracket. -/
theorem c4_bracket_without_space_rejected :
    spec_hasBracketedTimestamp "[t1]" ∧ parse_log_line "[t1]" = none := by
  constructor
  · exact ⟨[], ['t', '1'], [], by decide, by decide, by decide⟩
  · rfl

/-- C4 (amended): `parse_log_line` returns a populated entry exactly for
lines containing a bracketed timestamp token immediately followed by a
space, and no-match otherwise (it never throws: the embedding is total); on
a line with the anchor and nothing else, every omitted field holds its
documented sentinel. -/
theorem c4_populated_iff_anchor_and_space :
    (∀ line : String, (parse_log_line line).isSome = true ↔ spec_timestampAnchor line)
    ∧ parse_log_line "[t1] "
        = some ⟨"t1", "-", "-", "-", "-", "-", "-", "-", "0", "0", "-"⟩ := by
  constructor
  · intro line
    constructor
    · intro h
      rw [parse_isSome_iff_search] at h
      cases hs : searchTimestamp line.toList with
      | none => rw [hs] at h; exact absurd h (by simp)
      | some r =>
        obtain ⟨pre, rest2, hcs, hmt⟩ := searchTimestamp_decomp line.toList r hs
        obtain ⟨mid, post, hrest, hne, hmem⟩ := matchTimestamp_decomp rest2 r hmt
        exact ⟨pre, mid, post, by rw [hcs, hrest], hne, hmem⟩
    · rintro ⟨pre, mid, post, hdecomp, hne, hmem⟩
      rw [parse_isSome_iff_search, hdecomp]
      exact searchTimestamp_isSome pre _ (matchTimestamp_isSome mid post hne hmem)
  · rfl

end Watcher
